import Mathlib

/-!
Verification of the two-stage classification-and-indexing pipeline of the
orin-io repository (src/tools.py, src/indexmanager.py, src/constants.py)
against its natural-language specification.

The Python code is shallowly embedded: dict-shaped records become structures,
external collaborators (feed parser, embedding provider, LLM completion, JSON
parsing) become function parameters, Python exceptions become `Except` values,
and the mutable `IndexManager` object becomes explicit state passing.  Each
definition carries a reference to the source lines it embeds.
-/

/-- One advisory dict as built by `fetch_cisa_advisories` (src/tools.py 178-185):
six string fields `id`, `title`, `summary`, `link`, `published`, `content`. -/
structure Advisory where
  id : String
  title : String
  summary : String
  link : String
  published : String
  content : String
deriving Repr, DecidableEq

/-- One raw RSS feed entry as seen through `entry.get(...)` (src/tools.py
179-184): every field may be absent, which `feedparser` models as a missing
key and we model as `Option.none`. -/
structure FeedEntry where
  id : Option String
  title : Option String
  summary : Option String
  link : Option String
  published : Option String
deriving Repr, DecidableEq

/-- `MAX_ADVISORIES` (src/constants.py line 20). -/
def MAX_ADVISORIES : Nat := 60

/-- The advisory dict built from one feed entry at position `i` of the sliced
entry list (src/tools.py 178-185).  `now` stands for `str(datetime.now())`,
the value substituted when `published` is missing. -/
def mkAdvisory (now : String) (i : Nat) (e : FeedEntry) : Advisory :=
  { id := e.id.getD ("advisory_" ++ toString i)
    title := e.title.getD "No Title"
    summary := e.summary.getD "No Summary"
    link := e.link.getD ""
    published := e.published.getD now
    content := e.summary.getD "" ++ " " ++ e.title.getD "" }

/-- `fetch_cisa_advisories` (src/tools.py 168-189), happy path: the parsed
feed entries are a parameter (`feedparser.parse` is an external collaborator);
the loop enumerates `feed.entries[:MAX_ADVISORIES]` and builds one advisory
dict per entry. -/
def fetch_cisa_advisories (now : String) (entries : List FeedEntry) : List Advisory :=
  ((entries.take MAX_ADVISORIES).enum).map (fun p => mkAdvisory now p.1 p.2)

/-- The empty advisory, used only as the out-of-range default of `List.getD`. -/
def defaultAdvisory : Advisory :=
  { id := "", title := "", summary := "", link := "", published := "", content := "" }

/-- The empty feed entry, used only as the out-of-range default of `List.getD`. -/
def defaultFeedEntry : FeedEntry :=
  { id := none, title := none, summary := none, link := none, published := none }

/-- Claim C10: `fetch_cisa_advisories` returns at most `MAX_ADVISORIES = 60`
items, and the item at each position `i` has all six fields populated from
the entry at position `i`, with the code's default substituted for any
missing field (`advisory_i` for `id`, `No Title`, `No Summary`, the empty
link, the current time for `published`, and `content` built from the
empty-string defaults). -/
theorem fetch_cisa_advisories_spec (now : String) (entries : List FeedEntry) (i : Nat)
    (h : i < (fetch_cisa_advisories now entries).length) :
    (fetch_cisa_advisories now entries).length ≤ MAX_ADVISORIES ∧
    (fetch_cisa_advisories now entries).getD i defaultAdvisory =
      mkAdvisory now i ((entries.take MAX_ADVISORIES).getD i defaultFeedEntry) ∧
    ((fetch_cisa_advisories now entries).getD i defaultAdvisory).id =
      ((entries.take MAX_ADVISORIES).getD i defaultFeedEntry).id.getD ("advisory_" ++ toString i) ∧
    ((fetch_cisa_advisories now entries).getD i defaultAdvisory).title =
      ((entries.take MAX_ADVISORIES).getD i defaultFeedEntry).title.getD "No Title" ∧
    ((fetch_cisa_advisories now entries).getD i defaultAdvisory).summary =
      ((entries.take MAX_ADVISORIES).getD i defaultFeedEntry).summary.getD "No Summary" ∧
    ((fetch_cisa_advisories now entries).getD i defaultAdvisory).link =
      ((entries.take MAX_ADVISORIES).getD i defaultFeedEntry).link.getD "" ∧
    ((fetch_cisa_advisories now entries).getD i defaultAdvisory).published =
      ((entries.take MAX_ADVISORIES).getD i defaultFeedEntry).published.getD now ∧
    ((fetch_cisa_advisories now entries).getD i defaultAdvisory).content =
      ((entries.take MAX_ADVISORIES).getD i defaultFeedEntry).summary.getD "" ++ " " ++
      ((entries.take MAX_ADVISORIES).getD i defaultFeedEntry).title.getD "" := by
  have hlen : (fetch_cisa_advisories now entries).length ≤ MAX_ADVISORIES := by
    simp only [fetch_cisa_advisories, List.length_map, List.enum_length]
    exact List.length_take_le _ _
  have hi : i < ((entries.take MAX_ADVISORIES).enum).length := by
    simpa only [fetch_cisa_advisories, List.length_map] using h
  have hi2 : i < (entries.take MAX_ADVISORIES).length := by
    simpa only [List.enum_length] using hi
  have hval : (fetch_cisa_advisories now entries).getD i defaultAdvisory =
      mkAdvisory now i ((entries.take MAX_ADVISORIES).getD i defaultFeedEntry) := by
    rw [List.getD_eq_getElem _ _ h, List.getD_eq_getElem _ _ hi2]
    simp only [fetch_cisa_advisories, List.getElem_map, List.getElem_enum]
  refine ⟨hlen, hval, ?_, ?_, ?_, ?_, ?_, ?_⟩ <;> rw [hval] <;> rfl

/-- Concrete instance of C10: one feed entry with every field missing gets
the documented defaults. -/
theorem fetch_cisa_advisories_spec_witness :
    (0 < (fetch_cisa_advisories "NOW" [defaultFeedEntry]).length) ∧
    (fetch_cisa_advisories "NOW" [defaultFeedEntry]).getD 0 defaultAdvisory =
      mkAdvisory "NOW" 0 (([defaultFeedEntry].take MAX_ADVISORIES).getD 0 defaultFeedEntry) := by
  refine ⟨by decide, ?_⟩
  exact (fetch_cisa_advisories_spec "NOW" [defaultFeedEntry] 0 (by decide)).2.1

/-- The JSON object parsed from the LLM response of `map_to_mitre_attack`
(the contract requested at src/tools.py 28-37): a `mapped_techniques` array,
a `reasoning` mapping and a `confidence` string. -/
structure MitreMapping where
  mapped_techniques : List String
  reasoning : List (String × String)
  confidence : String
deriving Repr, DecidableEq

/-- The try-block of `map_to_mitre_attack` (src/tools.py 104-141).  External
fallible collaborators are parameters, a raised Python exception being
`Except.error`:
* `stage1` is `find_similar_mitre_techniques(content, mitre_embeddings, 5)`
  together with the candidate-dict comprehension of lines 109-117, returning
  the candidate (technique id, details) pairs;
* `serializeCand` is `json.dumps` on the candidate dict, `mitreDataSer` is
  the serialized full `mitre_data` set loaded at lines 124-125;
* `tpl` is `REFINED_PROMPT_TEMPLATE.format` (lines 131-134);
* `complete` is `llm_model.complete` and `parseJson` is `json.loads(response.text)`.
`emb_nonempty` models the truthiness tests `if mitre_embeddings:` (line 107)
and `candidate_techniques if candidate_techniques else mitre_data` (line 128,
an empty candidate dict falls back to the full set). -/
def map_stages
    (stage1 : String → Except String (List (String × String)))
    (serializeCand : List (String × String) → String)
    (mitreDataSer : String)
    (tpl : String → String → String)
    (complete : String → Except String String)
    (parseJson : String → Except String MitreMapping)
    (advisory_content : String)
    (emb_nonempty : Bool) : Except String MitreMapping :=
  let step1 : Except String (Option (List (String × String))) :=
    if emb_nonempty then
      match stage1 advisory_content with
      | .ok cands => .ok (some cands)
      | .error e => .error e
    else .ok none
  match step1 with
  | .error e => .error e
  | .ok candidate_techniques =>
    let techniques_to_analyze : String :=
      match candidate_techniques with
      | some cs => if cs.isEmpty then mitreDataSer else serializeCand cs
      | none => mitreDataSer
    let refined_prompt := tpl advisory_content techniques_to_analyze
    match complete refined_prompt with
    | .error e => .error e
    | .ok text => parseJson text

/-- `map_to_mitre_attack` (src/tools.py 98-165): the try-block `map_stages`
wrapped in the `except Exception` handler of lines 164-165, which prints the
error and falls off the end of the function, returning Python `None`
(`Option.none`); on success the parsed mapping is returned verbatim
(line 141). -/
def map_to_mitre_attack
    (stage1 : String → Except String (List (String × String)))
    (serializeCand : List (String × String) → String)
    (mitreDataSer : String)
    (tpl : String → String → String)
    (complete : String → Except String String)
    (parseJson : String → Except String MitreMapping)
    (advisory_content : String)
    (emb_nonempty : Bool) : Option MitreMapping :=
  match map_stages stage1 serializeCand mitreDataSer tpl complete parseJson
      advisory_content emb_nonempty with
  | .ok mapping => some mapping
  | .error _ => none

/-- Claim C1, amended: an exception raised at any stage of
`map_to_mitre_attack` (candidate ranking, completion, or JSON parsing) is
caught by the handler at src/tools.py 164-165 and the operation returns
`None` — not a fallback result with empty `mapped_categories` and
`confidence = "unknown"` as the claim states. -/
theorem map_error_caught_returns_none
    (stage1 : String → Except String (List (String × String)))
    (serializeCand : List (String × String) → String)
    (mitreDataSer : String)
    (tpl : String → String → String)
    (complete : String → Except String String)
    (parseJson : String → Except String MitreMapping)
    (advisory_content : String)
    (emb_nonempty : Bool)
    (e : String)
    (h : map_stages stage1 serializeCand mitreDataSer tpl complete parseJson
        advisory_content emb_nonempty = .error e) :
    map_to_mitre_attack stage1 serializeCand mitreDataSer tpl complete parseJson
        advisory_content emb_nonempty = none := by
  unfold map_to_mitre_attack
  rw [h]

/-- Concrete instance of the amended C1: a malformed completion whose JSON
parse fails makes `map_to_mitre_attack` return `None`. -/
theorem map_error_caught_returns_none_witness :
    map_stages (fun _ => .ok [("T0801", "details")]) (fun _ => "cands") "full"
        (fun a t => a ++ t) (fun _ => .ok "not json")
        (fun _ => .error "Expecting value") "advisory text" true = .error "Expecting value" ∧
    map_to_mitre_attack (fun _ => .ok [("T0801", "details")]) (fun _ => "cands") "full"
        (fun a t => a ++ t) (fun _ => .ok "not json")
        (fun _ => .error "Expecting value") "advisory text" true = none := by
  constructor
  · rfl
  · exact map_error_caught_returns_none _ _ _ _ _ _ _ _ "Expecting value" rfl

/-- Counterexample to claim C1 as stated: with a completion provider whose
output fails JSON parsing, `map_to_mitre_attack` returns `None`, not a
`ClassificationResult` with empty `mapped_categories` and
`confidence = "unknown"`. -/
theorem map_error_fallback_counterexample :
    map_to_mitre_attack (fun _ => .ok [("T0801", "details")]) (fun _ => "cands") "full"
        (fun a t => a ++ t) (fun _ => .ok "not json")
        (fun _ => .error "Expecting value") "advisory text" true = none ∧
    map_to_mitre_attack (fun _ => .ok [("T0801", "details")]) (fun _ => "cands") "full"
        (fun a t => a ++ t) (fun _ => .ok "not json")
        (fun _ => .error "Expecting value") "advisory text" true ≠
      some { mapped_techniques := [], reasoning := [], confidence := "unknown" } := by
  constructor
  · rfl
  · intro hcontra
    exact Option.noConfusion hcontra

/-- Claim C2, amended: when every stage succeeds, `map_to_mitre_attack`
returns the parsed completion response verbatim (src/tools.py 139-141); the
at-most-3 bound and candidate-subset membership are only requested in the
prompt text, never enforced on the returned mapping. -/
theorem map_refine_verbatim_passthrough
    (stage1 : String → Except String (List (String × String)))
    (serializeCand : List (String × String) → String)
    (mitreDataSer : String)
    (tpl : String → String → String)
    (complete : String → Except String String)
    (parseJson : String → Except String MitreMapping)
    (advisory_content : String)
    (cs : List (String × String)) (txt : String) (m : MitreMapping)
    (h1 : stage1 advisory_content = .ok cs)
    (h2 : cs ≠ [])
    (h3 : complete (tpl advisory_content (serializeCand cs)) = .ok txt)
    (h4 : parseJson txt = .ok m) :
    map_to_mitre_attack stage1 serializeCand mitreDataSer tpl complete parseJson
        advisory_content true = some m := by
  have hcs : cs.isEmpty = false := by
    cases cs with
    | nil => exact absurd rfl h2
    | cons a l => rfl
  unfold map_to_mitre_attack map_stages
  simp only [h1, hcs, h3, h4, if_true, Bool.false_eq_true, if_false]

/-- Concrete instance of the amended C2: the passthrough at a completion
that returns four ids outside the candidate set. -/
theorem map_refine_verbatim_passthrough_witness :
    map_to_mitre_attack (fun _ => .ok [("T0801", "details")]) (fun _ => "cands") "full"
        (fun a t => a ++ t) (fun _ => .ok "raw")
        (fun _ => .ok { mapped_techniques := ["X1", "X2", "X3", "X4"], reasoning := [],
                        confidence := "high" }) "advisory text" true =
      some { mapped_techniques := ["X1", "X2", "X3", "X4"], reasoning := [],
             confidence := "high" } := by
  exact map_refine_verbatim_passthrough _ _ _ _ _ _ _ [("T0801", "details")] "raw" _
    rfl (by decide) rfl rfl

/-- Counterexample to claim C2 as stated: the candidate set is `["T0801"]`,
yet the returned mapping has four ids, none of which is a candidate — the
code performs no size or membership validation. -/
theorem map_refine_bound_counterexample :
    map_to_mitre_attack (fun _ => .ok [("T0801", "details")]) (fun _ => "cands") "full"
        (fun a t => a ++ t) (fun _ => .ok "raw")
        (fun _ => .ok { mapped_techniques := ["X1", "X2", "X3", "X4"], reasoning := [],
                        confidence := "high" }) "advisory text" true =
      some { mapped_techniques := ["X1", "X2", "X3", "X4"], reasoning := [],
             confidence := "high" } ∧
    3 < (["X1", "X2", "X3", "X4"] : List String).length ∧
    "X1" ∉ ([("T0801", "details")] : List (String × String)).map Prod.fst := by
  refine ⟨rfl, by decide, by decide⟩

/-- `np.dot(a, b)` on two equal-length vectors, rational components standing
for the float components. -/
def dotProduct (a b : List ℚ) : ℚ := (List.zipWith (fun x y => x * y) a b).sum

/-- The squared Euclidean norm, `np.linalg.norm(a) ** 2`. -/
def normSq (a : List ℚ) : ℚ := dotProduct a a

/-- `np.linalg.norm(a)`: the square root of the sum of squares, a real
number. -/
noncomputable def pyNorm (a : List ℚ) : ℝ := Real.sqrt ((normSq a : ℚ) : ℝ)

/-- The denominator of the cosine-similarity division exactly as the code
computes it (src/tools.py 83-85):
`np.linalg.norm(mitre_emb) * np.linalg.norm(advisory_emb)` — no epsilon
term. -/
noncomputable def cosineDenom (a b : List ℚ) : ℝ := pyNorm a * pyNorm b

/-- The denominator the specification describes: `‖a‖·‖b‖ + ε` with
`ε = 1e-8`.  Stated from the spec for comparison with `cosineDenom`; no such
term exists in the code. -/
noncomputable def cosineDenomSpec (a b : List ℚ) : ℝ :=
  pyNorm a * pyNorm b + 1 / 100000000

/-- The cosine similarity of src/tools.py 83-85: `dot(a,b)` divided by the
unguarded product of norms. -/
noncomputable def cosine_sim (a b : List ℚ) : ℝ := ((dotProduct a b : ℚ) : ℝ) / cosineDenom a b

/-- Claim C3, amended: the code computes the cosine denominator as
`‖a‖·‖b‖` with no epsilon term, so whenever either vector has zero norm the
denominator is exactly zero (numpy then raises a divide-by-zero warning and
produces nan); the division is not guarded as the claim states. -/
theorem cosine_denominator_zero_on_zero_norm (a b : List ℚ)
    (h : normSq a = 0 ∨ normSq b = 0) :
    cosineDenom a b = 0 := by
  rcases h with h | h
  · have : pyNorm a = 0 := by
      rw [pyNorm, h]
      push_cast
      exact Real.sqrt_zero
    rw [cosineDenom, this, zero_mul]
  · have : pyNorm b = 0 := by
      rw [pyNorm, h]
      push_cast
      exact Real.sqrt_zero
    rw [cosineDenom, this, mul_zero]

/-- Concrete instance of the amended C3: the zero vector against a unit
vector gives a zero denominator. -/
theorem cosine_denominator_zero_on_zero_norm_witness :
    normSq [(0 : ℚ)] = 0 ∧ cosineDenom [(0 : ℚ)] [(1 : ℚ)] = 0 := by
  refine ⟨by simp [normSq, dotProduct], ?_⟩
  exact cosine_denominator_zero_on_zero_norm [(0 : ℚ)] [(1 : ℚ)]
    (Or.inl (by simp [normSq, dotProduct]))

/-- Counterexample to claim C3 as stated: for the zero vector paired with a
unit vector the code's denominator is zero (so the division is not total),
and it differs from the epsilon-guarded denominator the claim describes,
which is nonzero there. -/
theorem cosine_denominator_counterexample :
    cosineDenom [(0 : ℚ)] [(1 : ℚ)] = 0 ∧
    cosineDenomSpec [(0 : ℚ)] [(1 : ℚ)] ≠ 0 ∧
    cosineDenom [(0 : ℚ)] [(1 : ℚ)] ≠ cosineDenomSpec [(0 : ℚ)] [(1 : ℚ)] := by
  have h0 : pyNorm [(0 : ℚ)] = 0 := by
    have : normSq [(0 : ℚ)] = 0 := by simp [normSq, dotProduct]
    rw [pyNorm, this]
    push_cast
    exact Real.sqrt_zero
  have hd : cosineDenom [(0 : ℚ)] [(1 : ℚ)] = 0 := by
    rw [cosineDenom, h0, zero_mul]
  have hs : cosineDenomSpec [(0 : ℚ)] [(1 : ℚ)] = 1 / 100000000 := by
    rw [cosineDenomSpec, h0, zero_mul, zero_add]
  refine ⟨hd, ?_, ?_⟩
  · rw [hs]; norm_num
  · rw [hd, hs]; norm_num

/-- Contiguous token chunks of at most `size` tokens, the last chunk possibly
shorter.  Stated from the spec's words for `embed_long` (tokens are
abstracted to naturals). -/
def chunkTokens (size : Nat) (tokens : List Nat) : List (List Nat) :=
  (List.range ((tokens.length + size - 1) / size)).map
    (fun j => (tokens.drop (j * size)).take size)

/-- Elementwise sum of two equal-dimension vectors. -/
def vadd (a b : List ℚ) : List ℚ := List.zipWith (fun x y => x + y) a b

/-- Elementwise mean of a list of equal-dimension vectors. -/
def vmean (vs : List (List ℚ)) : List ℚ :=
  match vs with
  | [] => []
  | v :: rest => (rest.foldl vadd v).map (fun x => x / (vs.length : ℚ))

/-- `embed_long(text, chunk_token_size)` as the specification describes it:
tokenize, split into contiguous chunks of at most `chunk_token_size` tokens,
embed each chunk independently, return the elementwise mean.  This
definition follows the spec's words for comparison: no such operation exists
anywhere in the repository. -/
def embed_long (embed : List Nat → List ℚ) (chunk_token_size : Nat)
    (tokens : List Nat) : List ℚ :=
  vmean ((chunkTokens chunk_token_size tokens).map embed)

/-- The document embedding exactly as the code obtains it (src/tools.py
line 73): one direct `embed_model.get_text_embedding(advisory_content)` call
on the whole text, with no tokenization, chunking or pooling. -/
def advisory_embedding (embed : List Nat → List ℚ) (tokens : List Nat) : List ℚ :=
  embed tokens

/-- Claim C4, amended: `find_similar_mitre_techniques` obtains the document
embedding with a single direct provider call on the full text (src/tools.py
line 73); whenever the chunked mean of `embed_long` differs from that single
call, the code's document vector differs from the one the claim describes. -/
theorem advisory_embedding_single_call (embed : List Nat → List ℚ)
    (chunk_token_size : Nat) (tokens : List Nat)
    (h : embed_long embed chunk_token_size tokens ≠ embed tokens) :
    advisory_embedding embed tokens = embed tokens ∧
    advisory_embedding embed tokens ≠ embed_long embed chunk_token_size tokens := by
  refine ⟨rfl, ?_⟩
  intro hcontra
  exact h (hcontra.symm.trans rfl)

/-- Concrete instance of the amended C4: with the summing embedder over the
two-token text `[0, 1]` and chunk size 1, the chunked mean is `[1/2]` while
the code's single call gives `[1]`. -/
theorem advisory_embedding_single_call_witness :
    embed_long (fun ts => [(ts.sum : ℚ)]) 1 [0, 1] ≠ (fun ts => [((ts.sum : Nat) : ℚ)]) [0, 1] ∧
    advisory_embedding (fun ts => [(ts.sum : ℚ)]) [0, 1] =
      (fun ts => [((ts.sum : Nat) : ℚ)]) [0, 1] ∧
    advisory_embedding (fun ts => [(ts.sum : ℚ)]) [0, 1] ≠
      embed_long (fun ts => [(ts.sum : ℚ)]) 1 [0, 1] := by
  have h : embed_long (fun ts => [(ts.sum : ℚ)]) 1 [0, 1] ≠
      (fun ts => [((ts.sum : Nat) : ℚ)]) [0, 1] := by
    have h1 : embed_long (fun ts => [(ts.sum : ℚ)]) 1 [0, 1] = [(1 : ℚ) / 2] := by
      simp [embed_long, chunkTokens, vmean, vadd, List.range_succ]
    rw [h1]
    intro hcontra
    have := List.head_eq_of_cons_eq hcontra
    norm_num at this
  have hmain := advisory_embedding_single_call (fun ts => [(ts.sum : ℚ)]) 1 [0, 1] h
  exact ⟨h, hmain.1, hmain.2⟩

/-- Counterexample to claim C4 as stated: the document vector the code
computes for the two-token text differs from the chunked elementwise mean
prescribed by `embed_long`. -/
theorem advisory_embedding_counterexample :
    advisory_embedding (fun ts => [(ts.sum : ℚ)]) [0, 1] = [(1 : ℚ)] ∧
    embed_long (fun ts => [(ts.sum : ℚ)]) 1 [0, 1] = [(1 : ℚ) / 2] ∧
    advisory_embedding (fun ts => [(ts.sum : ℚ)]) [0, 1] ≠
      embed_long (fun ts => [(ts.sum : ℚ)]) 1 [0, 1] := by
  have h1 : advisory_embedding (fun ts => [(ts.sum : ℚ)]) [0, 1] = [(1 : ℚ)] := by
    simp [advisory_embedding]
  have h2 : embed_long (fun ts => [(ts.sum : ℚ)]) 1 [0, 1] = [(1 : ℚ) / 2] := by
    simp [embed_long, chunkTokens, vmean, vadd, List.range_succ]
  refine ⟨h1, h2, ?_⟩
  rw [h1, h2]
  intro hcontra
  have := List.head_eq_of_cons_eq hcontra
  norm_num at this

/-- One element of the `similarities` list built by
`find_similar_mitre_techniques` (src/tools.py 87-91): a technique id with
its similarity score.  Scores are rationals standing for the float cosine
values; the sorting and slicing behaviour below does not depend on how the
scores were computed. -/
structure SimEntry where
  technique_id : String
  similarity : ℚ
deriving Repr, DecidableEq

/-- One step of the stable descending sort: insert `x` after every
already-placed entry whose similarity is greater than or equal to
`x.similarity`. -/
def insertDesc (x : SimEntry) : List SimEntry → List SimEntry
  | [] => [x]
  | y :: ys => if y.similarity < x.similarity then x :: y :: ys else y :: insertDesc x ys

/-- `similarities.sort(key=lambda x: x[similarity], reverse=True)`
(src/tools.py 94).  CPython's `list.sort` is documented stable, and
`reverse=True` keeps equal-keyed elements in their original order; the left
fold inserts each later element after all earlier elements with a greater or
equal score, which realizes exactly that ordering. -/
def sortDesc (l : List SimEntry) : List SimEntry :=
  l.foldl (fun acc x => insertDesc x acc) []

/-- The `similarities` list in the original dict-iteration order
(src/tools.py 76-91): one entry per key of `mitre_embeddings`, scored
against the advisory embedding. -/
def simList (cosine : List ℚ → List ℚ → ℚ) (advisory_emb : List ℚ)
    (mitre_embeddings : List (String × List ℚ)) : List SimEntry :=
  mitre_embeddings.map (fun p => { technique_id := p.1, similarity := cosine p.2 advisory_emb })

/-- `find_similar_mitre_techniques` (src/tools.py 65-95): embed the advisory
content with one provider call (line 73), score every entry of
`mitre_embeddings` (insertion-ordered dict, modeled as an association list),
sort descending by similarity with the stable sort, return the first
`top_k` entries.  `embedFn` is `embed_model.get_text_embedding` and `cosine`
the float cosine-similarity computation of lines 83-85, both external
numeric collaborators here. -/
def find_similar_mitre_techniques (embedFn : String → List ℚ)
    (cosine : List ℚ → List ℚ → ℚ) (advisory_content : String)
    (mitre_embeddings : List (String × List ℚ)) (top_k : Nat) : List SimEntry :=
  (sortDesc (simList cosine (embedFn advisory_content) mitre_embeddings)).take top_k

theorem insertDesc_perm (x : SimEntry) :
    ∀ l : List SimEntry, List.Perm (insertDesc x l) (x :: l)
  | [] => List.Perm.refl _
  | y :: ys => by
    unfold insertDesc
    by_cases h : y.similarity < x.similarity
    · rw [if_pos h]
    · rw [if_neg h]
      exact ((insertDesc_perm x ys).cons y).trans (List.Perm.swap x y ys)

theorem foldl_insertDesc_perm (l : List SimEntry) :
    ∀ acc : List SimEntry, List.Perm (l.foldl (fun acc x => insertDesc x acc) acc) (acc ++ l) := by
  induction l with
  | nil => intro acc; simp
  | cons x xs ih =>
    intro acc
    have h1 : (x :: xs).foldl (fun acc x => insertDesc x acc) acc =
        xs.foldl (fun acc x => insertDesc x acc) (insertDesc x acc) := rfl
    rw [h1]
    refine (ih (insertDesc x acc)).trans ?_
    refine ((insertDesc_perm x acc).append_right xs).trans ?_
    rw [List.cons_append]
    exact List.perm_middle.symm

theorem sortDesc_perm (l : List SimEntry) : List.Perm (sortDesc l) l := by
  simpa using foldl_insertDesc_perm l []

theorem insertDesc_pairwise {x : SimEntry} {l : List SimEntry}
    (h : l.Pairwise (fun a b => b.similarity ≤ a.similarity)) :
    (insertDesc x l).Pairwise (fun a b => b.similarity ≤ a.similarity) := by
  induction l with
  | nil => simp [insertDesc]
  | cons y ys ih =>
    rw [List.pairwise_cons] at h
    obtain ⟨hy, hys⟩ := h
    unfold insertDesc
    by_cases hlt : y.similarity < x.similarity
    · rw [if_pos hlt]
      rw [List.pairwise_cons]
      refine ⟨?_, List.pairwise_cons.mpr ⟨hy, hys⟩⟩
      intro z hz
      rcases List.mem_cons.mp hz with rfl | hz2
      · exact le_of_lt hlt
      · exact le_trans (hy z hz2) (le_of_lt hlt)
    · rw [if_neg hlt]
      rw [List.pairwise_cons]
      refine ⟨?_, ih hys⟩
      intro z hz
      rcases List.mem_cons.mp ((insertDesc_perm x ys).mem_iff.mp hz) with rfl | hz2
      · exact le_of_not_lt hlt
      · exact hy z hz2

theorem foldl_insertDesc_pairwise (l : List SimEntry) :
    ∀ acc : List SimEntry, acc.Pairwise (fun a b => b.similarity ≤ a.similarity) →
      (l.foldl (fun acc x => insertDesc x acc) acc).Pairwise
        (fun a b => b.similarity ≤ a.similarity) := by
  induction l with
  | nil => intro acc hacc; exact hacc
  | cons x xs ih => intro acc hacc; exact ih (insertDesc x acc) (insertDesc_pairwise hacc)

theorem sortDesc_pairwise (l : List SimEntry) :
    (sortDesc l).Pairwise (fun a b => b.similarity ≤ a.similarity) :=
  foldl_insertDesc_pairwise l [] (List.Pairwise.nil)

theorem filter_insertDesc_of_ne {x : SimEntry} {s : ℚ} (hx : x.similarity ≠ s)
    (l : List SimEntry) :
    (insertDesc x l).filter (fun e => decide (e.similarity = s)) =
      l.filter (fun e => decide (e.similarity = s)) := by
  induction l with
  | nil => simp [insertDesc, hx]
  | cons y ys ih =>
    unfold insertDesc
    by_cases hlt : y.similarity < x.similarity
    · rw [if_pos hlt]
      simp [List.filter_cons, hx]
    · rw [if_neg hlt]
      simp only [List.filter_cons, ih]

theorem filter_insertDesc_of_eq {x : SimEntry} {s : ℚ} (hx : x.similarity = s)
    {l : List SimEntry} (hl : l.Pairwise (fun a b => b.similarity ≤ a.similarity)) :
    (insertDesc x l).filter (fun e => decide (e.similarity = s)) =
      l.filter (fun e => decide (e.similarity = s)) ++ [x] := by
  induction l with
  | nil => simp [insertDesc, hx]
  | cons y ys ih =>
    rw [List.pairwise_cons] at hl
    obtain ⟨hy, hys⟩ := hl
    unfold insertDesc
    by_cases hlt : y.similarity < x.similarity
    · rw [if_pos hlt]
      have hnil : (y :: ys).filter (fun e => decide (e.similarity = s)) = [] := by
        rw [List.filter_eq_nil_iff]
        intro a ha
        rcases List.mem_cons.mp ha with rfl | ha2
        · simp only [decide_eq_true_eq]
          exact ne_of_lt (hx ▸ hlt)
        · simp only [decide_eq_true_eq]
          exact ne_of_lt (lt_of_le_of_lt (hy a ha2) (hx ▸ hlt))
      rw [List.filter_cons, hnil]
      simp [hx]
    · rw [if_neg hlt]
      by_cases hy2 : y.similarity = s
      · simp [List.filter_cons, hy2, ih hys]
      · simp [List.filter_cons, hy2, ih hys]

theorem filter_foldl_insertDesc (s : ℚ) (l : List SimEntry) :
    ∀ acc : List SimEntry, acc.Pairwise (fun a b => b.similarity ≤ a.similarity) →
      (l.foldl (fun acc x => insertDesc x acc) acc).filter
          (fun e => decide (e.similarity = s)) =
        acc.filter (fun e => decide (e.similarity = s)) ++
          l.filter (fun e => decide (e.similarity = s)) := by
  induction l with
  | nil => intro acc hacc; simp
  | cons x xs ih =>
    intro acc hacc
    have h1 : (x :: xs).foldl (fun acc x => insertDesc x acc) acc =
        xs.foldl (fun acc x => insertDesc x acc) (insertDesc x acc) := rfl
    rw [h1, ih (insertDesc x acc) (insertDesc_pairwise hacc)]
    by_cases hx : x.similarity = s
    · rw [filter_insertDesc_of_eq hx hacc]
      simp [List.filter_cons, hx]
    · rw [filter_insertDesc_of_ne hx]
      simp [List.filter_cons, hx]

theorem sortDesc_filter (s : ℚ) (l : List SimEntry) :
    (sortDesc l).filter (fun e => decide (e.similarity = s)) =
      l.filter (fun e => decide (e.similarity = s)) := by
  simpa using filter_foldl_insertDesc s l [] List.Pairwise.nil

/-- Claim C5: `find_similar_mitre_techniques` with `top_k = k` returns at
most `k` entries, sorted in descending order of similarity; every returned
technique id is a key of `mitre_embeddings`; and the returned entries with
any given score are an initial segment of the entries with that score in the
original iteration order (stable tie-break of the `reverse=True` sort). -/
theorem find_similar_rank_spec (embedFn : String → List ℚ)
    (cosine : List ℚ → List ℚ → ℚ) (advisory_content : String)
    (mitre_embeddings : List (String × List ℚ)) (top_k : Nat) :
    (find_similar_mitre_techniques embedFn cosine advisory_content
        mitre_embeddings top_k).length ≤ top_k ∧
    (find_similar_mitre_techniques embedFn cosine advisory_content
        mitre_embeddings top_k).Pairwise (fun a b => b.similarity ≤ a.similarity) ∧
    ((find_similar_mitre_techniques embedFn cosine advisory_content
        mitre_embeddings top_k).map (fun e => e.technique_id)).all
      (fun i => (mitre_embeddings.map Prod.fst).contains i) = true ∧
    ∀ s : ℚ, ∃ rest : List SimEntry,
      (find_similar_mitre_techniques embedFn cosine advisory_content
          mitre_embeddings top_k).filter (fun e => decide (e.similarity = s)) ++ rest =
        (simList cosine (embedFn advisory_content) mitre_embeddings).filter
          (fun e => decide (e.similarity = s)) := by
  refine ⟨?_, ?_, ?_, ?_⟩
  · exact List.length_take_le _ _
  · exact (sortDesc_pairwise _).sublist (List.take_sublist _ _)
  · rw [List.all_eq_true]
    intro i hi
    rw [List.mem_map] at hi
    obtain ⟨e, he, rfl⟩ := hi
    have he2 : e ∈ sortDesc (simList cosine (embedFn advisory_content) mitre_embeddings) :=
      List.mem_of_mem_take he
    have he3 : e ∈ simList cosine (embedFn advisory_content) mitre_embeddings :=
      (sortDesc_perm _).mem_iff.mp he2
    rw [simList, List.mem_map] at he3
    obtain ⟨p, hp, rfl⟩ := he3
    have : p.1 ∈ mitre_embeddings.map Prod.fst := List.mem_map.mpr ⟨p, hp, rfl⟩
    simpa using this
  · intro s
    refine ⟨((sortDesc (simList cosine (embedFn advisory_content)
        mitre_embeddings)).drop top_k).filter (fun e => decide (e.similarity = s)), ?_⟩
    rw [find_similar_mitre_techniques, ← List.filter_append, List.take_append_drop]
    exact sortDesc_filter s _

/-- The metadata of one `Document` inserted into the vector index
(src/indexmanager.py 294-304): the advisory fields plus the mapping's
techniques and confidence.  The free-text `enhanced_content` derives from
the same fields. -/
structure Doc where
  id : String
  title : String
  published : String
  link : String
  mitre_techniques : List String
  confidence : String
deriving Repr, DecidableEq

/-- One processed advisory as stored in `advisories_data`
(src/indexmanager.py 308-311): the advisory dict copied, with the
`mitre_mapping` attached. -/
structure Record where
  advisory : Advisory
  mitre_mapping : MitreMapping
deriving Repr, DecidableEq

/-- The `Document` built for one advisory (src/indexmanager.py 294-304). -/
def mkDoc (a : Advisory) (m : MitreMapping) : Doc :=
  { id := a.id, title := a.title, published := a.published, link := a.link,
    mitre_techniques := m.mapped_techniques, confidence := m.confidence }

/-- `advisory_data = advisory.copy(); advisory_data[mitre_mapping] = ...`
(src/indexmanager.py 308-310). -/
def mkRecord (a : Advisory) (m : MitreMapping) : Record :=
  { advisory := a, mitre_mapping := m }

/-- The mutable state of an `IndexManager` (src/indexmanager.py 19-20)
together with the persistent storage it reads and writes:
`index` is `self.index` (`None` until loaded or built), `advisories_data` is
`self.advisories_data`, and `persisted` is the `INDEX_PERSIST_PATH`
directory holding the persisted index and `advisories_metadata.json`
(absent or present; `persist_index` at lines 179-191 always writes both
together). -/
structure ManagerState where
  index : Option (List Doc)
  advisories_data : List Record
  persisted : Option (List Doc × List Record)
deriving Repr, DecidableEq

/-- `create_index` (src/indexmanager.py 33-91): classify every fetched
advisory, build the documents and the processed records, replace `index`
and `advisories_data`, then `persist_index` (line 91) writes both to
storage.  `fetched` stands for the `fetch_cisa_advisories()` result and
`classify` for a successful `map_to_mitre_attack` call on the advisory
content (invoked once per advisory); the returned list is the advisory
contents classified, in order. -/
def create_index (classify : String → MitreMapping) (fetched : List Advisory)
    (_st : ManagerState) : ManagerState × List String :=
  let records := fetched.map (fun a => mkRecord a (classify a.content))
  let docs := fetched.map (fun a => mkDoc a (classify a.content))
  ({ index := some docs, advisories_data := records, persisted := some (docs, records) },
   fetched.map (fun a => a.content))

/-- `load_existing_index` (src/indexmanager.py 154-177): if the persist
directory exists, load the index and the metadata file into memory and
return the index; otherwise (or on a load error) fall back to
`create_index()`, whose Python body ends without a `return` statement, so
the fallback returns `None` to the caller even though the rebuilt state is
in place.  The first component is that return value, which callers assign
to `self.index`. -/
def load_existing_index (classify : String → MitreMapping) (fetched : List Advisory)
    (st : ManagerState) : Option (List Doc) × ManagerState × List String :=
  match st.persisted with
  | some (docs, records) =>
    (some docs, { st with index := some docs, advisories_data := records }, [])
  | none =>
    let r := create_index classify fetched st
    (none, { r.1 with index := none }, r.2)

/-- `get_index` (src/indexmanager.py 193-199): load the index if it is not
in memory (`self.index = self.load_existing_index()`) and return it. -/
def get_index (classify : String → MitreMapping) (fetched : List Advisory)
    (st : ManagerState) : Option (List Doc) × ManagerState × List String :=
  match st.index with
  | some docs => (some docs, st, [])
  | none =>
    let r := load_existing_index classify fetched st
    (r.1, { r.2.1 with index := r.1 }, r.2.2)

/-- `get_advisories_data` (src/indexmanager.py 218-232): return the
in-memory data if non-empty; otherwise load the metadata file if it exists;
otherwise rebuild everything with `create_index`. -/
def get_advisories_data (classify : String → MitreMapping) (fetched : List Advisory)
    (st : ManagerState) : List Record × ManagerState × List String :=
  if st.advisories_data.isEmpty then
    match st.persisted with
    | some (_, records) => (records, { st with advisories_data := records }, [])
    | none =>
      let r := create_index classify fetched st
      (r.1.advisories_data, r.1, r.2)
  else (st.advisories_data, st, [])

/-- The dict returned by `check_for_updates` (src/indexmanager.py 111-116). -/
structure UpdateInfo where
  has_updates : Bool
  new_count : Nat
  total_current : Nat
  new_advisories : List Advisory
deriving Repr, DecidableEq

/-- `check_for_updates` (src/indexmanager.py 93-124): fetch the current
advisories, diff their ids against `get_advisories_data()`, and report the
new ones (preview of the first 3) without processing them. -/
def check_for_updates (classify : String → MitreMapping) (fetched : List Advisory)
    (st : ManagerState) : UpdateInfo × ManagerState × List String :=
  let r := get_advisories_data classify fetched st
  let existing_ids : List String := r.1.map (fun rec => rec.advisory.id)
  let new_advisories_available := fetched.filter (fun a => decide (a.id ∉ existing_ids))
  ({ has_updates := !new_advisories_available.isEmpty,
     new_count := new_advisories_available.length,
     total_current := r.1.length,
     new_advisories := new_advisories_available.take 3 },
   r.2.1, r.2.2)

/-- `refresh_index` (src/indexmanager.py 234-329).  With
`force_rebuild=True` (lines 238-242): clear the in-memory state and rebuild
with `create_index`.  Otherwise: diff the fetched ids against
`get_advisories_data()` (lines 246-257); if nothing is new return
`self.get_index()` (line 261); else classify each new advisory (lines
269-311), load the index if it is not in memory (lines 314-315), insert the
new documents (lines 319-320), set `advisories_data` to existing plus new
(line 323) and persist both (line 326).  The second component is the list
of advisory contents passed to classification.  The first component is
`none` exactly when `self.index` is still `None` at the insertion loop, in
which case Python would raise `AttributeError` on `self.index.insert`. -/
def refresh_index (classify : String → MitreMapping) (fetched : List Advisory)
    (force_rebuild : Bool) (st : ManagerState) : Option ManagerState × List String :=
  if force_rebuild then
    let r := create_index classify fetched { st with index := none, advisories_data := [] }
    (some r.1, r.2)
  else
    let gad := get_advisories_data classify fetched st
    let existing := gad.1
    let existing_ids : List String := existing.map (fun rec => rec.advisory.id)
    let new_to_process := fetched.filter (fun a => decide (a.id ∉ existing_ids))
    if new_to_process.isEmpty then
      let gi := get_index classify fetched gad.2.1
      (some gi.2.1, gad.2.2 ++ gi.2.2)
    else
      let new_records := new_to_process.map (fun a => mkRecord a (classify a.content))
      let new_docs := new_to_process.map (fun a => mkDoc a (classify a.content))
      let gi := get_index classify fetched gad.2.1
      match gi.2.1.index with
      | none =>
        (none, gad.2.2 ++ new_to_process.map (fun a => a.content) ++ gi.2.2)
      | some docs0 =>
        let docs1 := docs0 ++ new_docs
        let data1 := existing ++ new_records
        (some { index := some docs1, advisories_data := data1,
                persisted := some (docs1, data1) },
         gad.2.2 ++ new_to_process.map (fun a => a.content) ++ gi.2.2)

/-- A sample advisory used by the concrete witness instances. -/
def sampleAdvisory : Advisory :=
  { id := "ICSA-25-001", title := "Title A", summary := "Summary A", link := "LinkA",
    published := "2025-01-01", content := "Content A" }

/-- A second sample advisory with a distinct id. -/
def sampleAdvisory2 : Advisory :=
  { id := "ICSA-25-002", title := "Title B", summary := "Summary B", link := "LinkB",
    published := "2025-01-02", content := "Content B" }

/-- A sample classification result used by the concrete witness instances. -/
def sampleMapping : MitreMapping :=
  { mapped_techniques := ["T0801"], reasoning := [("T0801", "why")], confidence := "high" }

/-- A sample classifier returning `sampleMapping` for every content. -/
def sampleClassify : String → MitreMapping := fun _ => sampleMapping

/-- The record for `sampleAdvisory`. -/
def sampleRecord : Record := mkRecord sampleAdvisory sampleMapping

/-- Claim C6: when a persisted corpus exists, the in-memory data agrees with
it (empty, i.e. not yet loaded, or equal to the persisted records), and
every fetched id is already among the persisted record ids, then
`refresh_index(force_rebuild=False)` makes no classification call, leaves
the persisted corpus exactly as it was, and the in-memory corpus equals the
persisted records. -/
theorem refresh_index_no_new_noop (classify : String → MitreMapping)
    (fetched : List Advisory) (st : ManagerState) (docs : List Doc) (records : List Record)
    (hpers : st.persisted = some (docs, records))
    (hdata : st.advisories_data = [] ∨ st.advisories_data = records)
    (hall : ∀ a ∈ fetched, a.id ∈ records.map (fun r => r.advisory.id)) :
    (refresh_index classify fetched false st).2 = [] ∧
    ∃ st1, (refresh_index classify fetched false st).1 = some st1 ∧
      st1.persisted = st.persisted ∧
      st1.advisories_data = records := by
  obtain ⟨idx, data, pers⟩ := st
  simp only at hpers hdata
  subst hpers
  have hfilter : fetched.filter
      (fun a => decide (a.id ∉ records.map (fun r => r.advisory.id))) = [] := by
    rw [List.filter_eq_nil_iff]
    intro a ha
    simpa using hall a ha
  have hgad : get_advisories_data classify fetched ⟨idx, data, some (docs, records)⟩ =
      (records, ⟨idx, records, some (docs, records)⟩, []) := by
    rcases hdata with hdata | hdata
    · subst hdata
      simp [get_advisories_data]
    · subst hdata
      cases data with
      | nil => simp [get_advisories_data]
      | cons r rs => simp [get_advisories_data]
  cases idx with
  | some docs0 =>
    have hmain : refresh_index classify fetched false ⟨some docs0, data, some (docs, records)⟩ =
        (some ⟨some docs0, records, some (docs, records)⟩, []) := by
      simp only [refresh_index, Bool.false_eq_true, if_false, hgad, hfilter,
        List.isEmpty_nil, if_true, get_index, List.append_nil, List.nil_append]
    rw [hmain]
    exact ⟨rfl, ⟨some docs0, records, some (docs, records)⟩, rfl, rfl, rfl⟩
  | none =>
    have hmain : refresh_index classify fetched false ⟨none, data, some (docs, records)⟩ =
        (some ⟨some docs, records, some (docs, records)⟩, []) := by
      simp only [refresh_index, Bool.false_eq_true, if_false, hgad, hfilter,
        List.isEmpty_nil, if_true, get_index, load_existing_index, List.append_nil,
        List.nil_append]
    rw [hmain]
    exact ⟨rfl, ⟨some docs, records, some (docs, records)⟩, rfl, rfl, rfl⟩

/-- Concrete instance of C6: one already-known advisory, nothing
reclassified. -/
theorem refresh_index_no_new_noop_witness :
    (∀ a ∈ [sampleAdvisory], a.id ∈ [sampleRecord].map (fun r => r.advisory.id)) ∧
    (refresh_index sampleClassify [sampleAdvisory] false
        ⟨none, [], some ([], [sampleRecord])⟩).2 = [] := by
  refine ⟨by decide, ?_⟩
  exact (refresh_index_no_new_noop sampleClassify [sampleAdvisory]
    ⟨none, [], some ([], [sampleRecord])⟩ [] [sampleRecord] rfl (Or.inl rfl)
    (by decide)).1

/-- Claim C7: with a persisted corpus whose in-memory copy agrees with it,
if exactly one fetched advisory is new then `refresh_index` with
`force_rebuild=False` classifies exactly that advisory's content and
nothing else, the corpus becomes the old records plus the one new record,
its size grows by one, and the previously persisted records are unchanged
as a prefix. -/
theorem refresh_index_one_new_item (classify : String → MitreMapping)
    (fetched : List Advisory) (st : ManagerState) (docs : List Doc)
    (records : List Record) (a : Advisory)
    (hpers : st.persisted = some (docs, records))
    (hdata : st.advisories_data = [] ∨ st.advisories_data = records)
    (hnew : fetched.filter
        (fun x => decide (x.id ∉ records.map (fun r => r.advisory.id))) = [a]) :
    (refresh_index classify fetched false st).2 = [a.content] ∧
    ∃ st1, (refresh_index classify fetched false st).1 = some st1 ∧
      st1.advisories_data = records ++ [mkRecord a (classify a.content)] ∧
      st1.advisories_data.length = records.length + 1 ∧
      st1.advisories_data.take records.length = records := by
  obtain ⟨idx, data, pers⟩ := st
  simp only at hpers hdata
  subst hpers
  have hgad : get_advisories_data classify fetched ⟨idx, data, some (docs, records)⟩ =
      (records, ⟨idx, records, some (docs, records)⟩, []) := by
    rcases hdata with hdata | hdata
    · subst hdata
      simp [get_advisories_data]
    · subst hdata
      cases data with
      | nil => simp [get_advisories_data]
      | cons r rs => simp [get_advisories_data]
  cases idx with
  | some docs0 =>
    have hmain : refresh_index classify fetched false ⟨some docs0, data, some (docs, records)⟩ =
        (some ⟨some (docs0 ++ [mkDoc a (classify a.content)]),
               records ++ [mkRecord a (classify a.content)],
               some (docs0 ++ [mkDoc a (classify a.content)],
                     records ++ [mkRecord a (classify a.content)])⟩,
         [a.content]) := by
      simp only [refresh_index, Bool.false_eq_true, if_false, hgad, hnew,
        List.isEmpty_cons, get_index, List.map_cons, List.map_nil,
        List.append_nil, List.nil_append]
    rw [hmain]
    refine ⟨rfl, _, rfl, rfl, by simp, ?_⟩
    exact List.take_left records [mkRecord a (classify a.content)]
  | none =>
    have hmain : refresh_index classify fetched false ⟨none, data, some (docs, records)⟩ =
        (some ⟨some (docs ++ [mkDoc a (classify a.content)]),
               records ++ [mkRecord a (classify a.content)],
               some (docs ++ [mkDoc a (classify a.content)],
                     records ++ [mkRecord a (classify a.content)])⟩,
         [a.content]) := by
      simp only [refresh_index, Bool.false_eq_true, if_false, hgad, hnew,
        List.isEmpty_cons, get_index, load_existing_index, List.map_cons,
        List.map_nil, List.append_nil, List.nil_append]
    rw [hmain]
    refine ⟨rfl, _, rfl, rfl, by simp, ?_⟩
    exact List.take_left records [mkRecord a (classify a.content)]

/-- Concrete instance of C7: one known and one new advisory; only the new
content is classified. -/
theorem refresh_index_one_new_item_witness :
    ([sampleAdvisory, sampleAdvisory2].filter
        (fun x => decide (x.id ∉ [sampleRecord].map (fun r => r.advisory.id))) =
      [sampleAdvisory2]) ∧
    (refresh_index sampleClassify [sampleAdvisory, sampleAdvisory2] false
        ⟨none, [], some ([], [sampleRecord])⟩).2 = [sampleAdvisory2.content] := by
  refine ⟨by decide, ?_⟩
  exact (refresh_index_one_new_item sampleClassify [sampleAdvisory, sampleAdvisory2]
    ⟨none, [], some ([], [sampleRecord])⟩ [] [sampleRecord] sampleAdvisory2
    rfl (Or.inl rfl) (by decide)).1

/-- Claim C8: `refresh_index(force_rebuild=True)` ignores the whole existing
state: regardless of what was persisted or in memory, every fetched item is
classified (even when none of the ids are new) and both the in-memory and
the persisted corpus and index are fully replaced by the freshly processed
items. -/
theorem refresh_index_force_rebuild (classify : String → MitreMapping)
    (fetched : List Advisory) (st : ManagerState) :
    refresh_index classify fetched true st =
      (some { index := some (fetched.map (fun a => mkDoc a (classify a.content))),
              advisories_data := fetched.map (fun a => mkRecord a (classify a.content)),
              persisted := some (fetched.map (fun a => mkDoc a (classify a.content)),
                                 fetched.map (fun a => mkRecord a (classify a.content))) },
       fetched.map (fun a => a.content)) := rfl

/-- Claim C9, amended: `check_for_updates` makes no classification call and
leaves the in-memory index and the persisted storage unchanged provided
corpus data is available (non-empty in memory, or present on disk); when
the in-memory list is empty it only loads the persisted records into
memory.  Without any available corpus it instead triggers a full
`create_index` build — see the counterexample. -/
theorem check_for_updates_read_only_with_corpus (classify : String → MitreMapping)
    (fetched : List Advisory) (st : ManagerState)
    (h : st.advisories_data ≠ [] ∨ st.persisted ≠ none) :
    (check_for_updates classify fetched st).2.2 = [] ∧
    (check_for_updates classify fetched st).2.1.index = st.index ∧
    (check_for_updates classify fetched st).2.1.persisted = st.persisted := by
  obtain ⟨idx, data, pers⟩ := st
  cases data with
  | cons r rs => simp [check_for_updates, get_advisories_data]
  | nil =>
    simp only at h
    rcases h with h | h
    · exact absurd rfl h
    · cases pers with
      | none => exact absurd rfl h
      | some p =>
        obtain ⟨d, recs⟩ := p
        simp [check_for_updates, get_advisories_data]

/-- Concrete instance of the amended C9: with corpus data in memory, the
check makes no classification call. -/
theorem check_for_updates_read_only_witness :
    (([sampleRecord] : List Record) ≠ [] ∨
      (some (([] : List Doc), [sampleRecord]) : Option (List Doc × List Record)) ≠ none) ∧
    (check_for_updates sampleClassify [sampleAdvisory2]
        ⟨none, [sampleRecord], some ([], [sampleRecord])⟩).2.2 = [] := by
  refine ⟨Or.inl (by decide), ?_⟩
  exact (check_for_updates_read_only_with_corpus sampleClassify [sampleAdvisory2]
    ⟨none, [sampleRecord], some ([], [sampleRecord])⟩ (Or.inl (by decide))).1

/-- Counterexample to claim C9 as stated: in the state with an empty
in-memory list and no persisted storage, `check_for_updates` is not
read-only: via `get_advisories_data` it runs `create_index`, classifying
the fetched advisory and replacing the corpus and the persisted storage. -/
theorem check_for_updates_mutation_counterexample :
    (check_for_updates sampleClassify [sampleAdvisory] ⟨none, [], none⟩).2.2 =
      [sampleAdvisory.content] ∧
    (check_for_updates sampleClassify [sampleAdvisory] ⟨none, [], none⟩).2.1.advisories_data =
      [sampleRecord] ∧
    (check_for_updates sampleClassify [sampleAdvisory]
        ⟨none, [], none⟩).2.1.persisted ≠ none := by
  refine ⟨rfl, rfl, ?_⟩
  intro hc
  exact Option.noConfusion hc
